import Mathlib

/-!
Shallow embedding of the `EnhancedDisplayController` class of
`src/modules/display_controller.py` (wall-e-control repository), together
with theorems settling the specification claims about it.

Modelling conventions:
* pixel coordinates are integers (`ℤ`); the canvas of a PIL mode-"1" image
  is modelled as the Boolean function of its lit pixels;
* Python float arithmetic on battery percentages is modelled exactly over
  the rationals (`ℚ`); Python `int(...)` is truncation toward zero and
  Python `%` on positives is `a - b * ⌊a / b⌋`;
* a fallible hardware call (I2C probe, panel write, snapshot read) is
  modelled by a Boolean success input; the `try`/`except` blocks of the
  source are modelled by routing the failure case to the state the object
  holds at the raise point, exactly as CPython leaves it;
* drawing primitives return the draw call they issue (`Option Rect`)
  rather than mutating a surface; canvas application is separate.
-/

/-- A canvas (PIL mode-"1" image contents): which integer pixels are lit. -/
def Canvas : Type := ℤ → ℤ → Bool

/-- The all-dark canvas `Image.new("1", ...)` starts from. -/
def blank_canvas : Canvas := fun _ _ => false

/-- `max(0, min(v, limit - 1))`: the clamp applied to every coordinate in
`safe_rectangle` and `safe_line` (lines 157-160 and 177-180). -/
def clamp_coord (limit v : ℤ) : ℤ := max 0 (min v (limit - 1))

/-- A coordinate quadruple `(x1, y1, x2, y2)` as passed to PIL draw calls. -/
structure Rect where
  x1 : ℤ
  y1 : ℤ
  x2 : ℤ
  y2 : ℤ
deriving DecidableEq, Repr

/-- Lines 154-166 of `safe_rectangle`: clamp the four coordinates to the
logical bounds, then order each pair (`if x2 < x1: swap`, `if y2 < y1:
swap`). -/
def safe_rect_coords (lw lh x1 y1 x2 y2 : ℤ) : Rect :=
  let cx1 := clamp_coord lw x1
  let cy1 := clamp_coord lh y1
  let cx2 := clamp_coord lw x2
  let cy2 := clamp_coord lh y2
  let px := if cx2 < cx1 then (cx2, cx1) else (cx1, cx2)
  let py := if cy2 < cy1 then (cy2, cy1) else (cy1, cy2)
  ⟨px.1, py.1, px.2, py.2⟩

/-- `safe_rectangle` (lines 152-170): the rectangle draw call actually
issued — `some r` exactly when, after clamping and ordering, the span is
strictly positive in both directions (`x2 > x1 and y2 > y1`), else `none`
(nothing drawn). -/
def safe_rectangle (lw lh x1 y1 x2 y2 : ℤ) : Option Rect :=
  let r := safe_rect_coords lw lh x1 y1 x2 y2
  if r.x1 < r.x2 ∧ r.y1 < r.y2 then some r else none

/-- `safe_line` (lines 172-182): clamp the four coordinates to the logical
bounds and always issue the line draw call — there is no zero-span guard. -/
def safe_line (lw lh x1 y1 x2 y2 : ℤ) : Rect :=
  ⟨clamp_coord lw x1, clamp_coord lh y1, clamp_coord lw x2, clamp_coord lh y2⟩

/-- Painting of `ImageDraw.rectangle` with a solid fill: both corners are
inclusive.  `none` (no call issued) leaves the canvas unchanged. -/
def apply_rect_fill : Option Rect → Canvas → Canvas
  | none, c => c
  | some r, c => fun px py =>
      if r.x1 ≤ px ∧ px ≤ r.x2 ∧ r.y1 ≤ py ∧ py ≤ r.y2 then true else c px py

/-- Core loop of all-octant Bresenham, with fuel bounding the pixel count. -/
def bres_loop : ℕ → ℤ → ℤ → ℤ → ℤ → ℤ → ℤ → ℤ → ℤ → ℤ → List (ℤ × ℤ)
  | 0, _, _, _, _, _, _, _, _, _ => []
  | fuel + 1, px, py, x2, y2, dx, dy, sx, sy, err =>
    (px, py) ::
      (if px = x2 ∧ py = y2 then []
       else
         let e2 := 2 * err
         let stx := if dy ≤ e2 then (px + sx, err + dy) else (px, err)
         let sty := if e2 ≤ dx then (py + sy, stx.2 + dx) else (py, stx.2)
         bres_loop fuel stx.1 sty.1 x2 y2 dx dy sx sy sty.2)

/-- Pixels painted by a width-1 `ImageDraw.line` from `(x1, y1)` to
`(x2, y2)`: Bresenham with both endpoints included; in particular a
degenerate segment (equal endpoints) paints exactly its single pixel. -/
def line_pixels (x1 y1 x2 y2 : ℤ) : List (ℤ × ℤ) :=
  let dx := |x2 - x1|
  let dy := -|y2 - y1|
  let sx : ℤ := if x1 < x2 then 1 else -1
  let sy : ℤ := if y1 < y2 then 1 else -1
  bres_loop (dx - dy + 1).toNat x1 y1 x2 y2 dx dy sx sy (dx + dy)

/-- Painting of the line draw call issued by `safe_line`. -/
def apply_line (r : Rect) (c : Canvas) : Canvas := fun px py =>
  if (px, py) ∈ line_pixels r.x1 r.y1 r.x2 r.y2 then true else c px py

/-- The three view layouts of the controller (`display_mode` strings
`'solar'`, `'battery'`, `'normal'`). -/
inductive DisplayMode
  | solar
  | battery
  | normal
deriving DecidableEq, Repr

/-- The mutable attributes of `EnhancedDisplayController` that the claims
are about (the PIL image buffers are modelled separately). -/
structure DCState where
  available : Bool
  address : ℤ
  physical_width : ℤ
  physical_height : ℤ
  rotation : ℤ
  logical_width : ℤ
  logical_height : ℤ
  animation_frame : ℤ
  display_mode : DisplayMode
  last_battery_level : ℚ
deriving DecidableEq, Repr

/-- `__init__` (lines 24-47) before any hardware probing: physical
dimensions from the constructor arguments, logical dimensions swapped for
rotations 90 and 270, `available = False`, counters reset. -/
def dc_init (width height address rotation : ℤ) : DCState :=
  { available := false
    address := address
    physical_width := width
    physical_height := height
    rotation := rotation
    logical_width := if rotation = 90 ∨ rotation = 270 then height else width
    logical_height := if rotation = 90 ∨ rotation = 270 then width else height
    animation_frame := 0
    display_mode := DisplayMode.solar
    last_battery_level := 100 }

/-- `_initialize_display` (lines 85-105).  `hw a w h` tells whether an
SSD1306 panel answers at address `a` with raster `w × h` (the `try` block
up to `display.show()`).  On success the address and the PHYSICAL
dimensions are overwritten and `available` is set — the logical dimensions
are NOT recomputed.  On failure (`except`) no relevant attribute changes.
Returns the new state and the function's boolean result. -/
def initialize_display (hw : ℤ → ℤ → ℤ → Bool) (s : DCState)
    (address width height : ℤ) : DCState × Bool :=
  if hw address width height then
    ({ s with
        address := address
        physical_width := width
        physical_height := height
        available := true }, true)
  else (s, false)

/-- Line 74: the I2C addresses `_auto_detect_display` probes. -/
def addresses_to_try : List ℤ := [0x3C, 0x3D, 0x78, 0x7A, 0x3E, 0x3F]

/-- Line 75: the panel sizes `_auto_detect_display` probes. -/
def sizes_to_try : List (ℤ × ℤ) := [(128, 64), (128, 32), (64, 48)]

/-- The nested loop order of `_auto_detect_display`: all sizes for the
first address, then the next address. -/
def detect_attempts : List (ℤ × ℤ × ℤ) :=
  (addresses_to_try.map (fun a => sizes_to_try.map (fun wh => (a, wh.1, wh.2)))).flatten

/-- Loop body of `_auto_detect_display` (lines 77-81): return on the first
successful initialization. -/
def auto_detect_loop (hw : ℤ → ℤ → ℤ → Bool) :
    List (ℤ × ℤ × ℤ) → DCState → DCState
  | [], s => s
  | (a, w, h) :: rest, s =>
    let r := initialize_display hw s a w h
    if r.2 then r.1 else auto_detect_loop hw rest r.1

/-- `_auto_detect_display` (lines 72-83). -/
def auto_detect_display (hw : ℤ → ℤ → ℤ → Bool) (s : DCState) : DCState :=
  auto_detect_loop hw detect_attempts s

/-- The full constructor (lines 24-57, with `I2C_AVAILABLE` true): set up
attributes, try the configured address, then auto-detect if allowed. -/
def mk_controller (hw : ℤ → ℤ → ℤ → Bool) (width height address : ℤ)
    (auto_detect : Bool) (rotation : ℤ) : DCState :=
  let s := dc_init width height address rotation
  let r := initialize_display hw s address width height
  if r.2 then r.1
  else if auto_detect then auto_detect_display hw r.1
  else r.1

/-- State effect of `show_solar_panel_mode` (lines 280-413): no-op when
unavailable; otherwise, when the drawing and panel write succeed
(`display_ok`), increment `animation_frame` and reset it to 0 once it
exceeds 360 (lines 407-410); an exception anywhere in the `try` block is
caught (line 412) and skips the increment, which is the last statement. -/
def show_solar_panel_mode (display_ok : Bool) (s : DCState) : DCState :=
  if s.available = false then s
  else if display_ok then
    { s with
        animation_frame :=
          if 360 < s.animation_frame + 1 then 0 else s.animation_frame + 1 }
  else s

/-- State effect of `show_battery_focus` (lines 445-542): it draws and
writes the panel but mutates no controller attribute — in particular it
never touches `animation_frame`. -/
def show_battery_focus (s : DCState) : DCState := s

/-- State effect of `_show_normal_status` (lines 544-639): mutates no
controller attribute. -/
def show_normal_status (s : DCState) : DCState := s

/-- `update_status` (lines 415-443).  `snapshot_ok` models the reads of
`walle_state` at the top of the `try` block (an exception there is caught
at line 442 with nothing mutated yet); `display_ok` models the drawing and
panel write inside the selected view.  Mode policy of lines 425-430:
`display_mode` is unconditionally reset to `'solar'` and switched to
`'battery'` only when `battery_level < 15` — no branch selects
`'normal'`. -/
def update_status (snapshot_ok display_ok : Bool) (s : DCState)
    (battery_level : ℚ) (is_charging : Bool) (solar_power : ℚ) : DCState :=
  if s.available = false then s
  else if snapshot_ok = false then s
  else
    let s1 := { s with
      display_mode :=
        if battery_level < 15 then DisplayMode.battery else DisplayMode.solar }
    let s2 :=
      match s1.display_mode with
      | DisplayMode.solar => show_solar_panel_mode display_ok s1
      | DisplayMode.battery => show_battery_focus s1
      | DisplayMode.normal => show_normal_status s1
    { s2 with last_battery_level := battery_level }

/-- Python `int(q)` applied to a non-integer number: truncation toward
zero. -/
def pyInt (q : ℚ) : ℤ := if q < 0 then ⌈q⌉ else ⌊q⌋

/-- Python `a % b` for numbers with `b > 0`: `a - b * floor(a / b)`. -/
def pyMod (a b : ℚ) : ℚ := a - b * ⌊a / b⌋

/-- Lines 220-222 of `draw_vertical_charge_bars`: `bar_spacing = 2`,
`available_height = height - 2 * (num_bars - 1)`,
`bar_height = max(2, available_height // num_bars)`. -/
def bar_height_of (height : ℤ) (num_bars : ℕ) : ℤ :=
  max 2 (Int.fdiv (height - 2 * ((num_bars : ℤ) - 1)) (num_bars : ℤ))

/-- Line 225: `bars_to_fill = int((battery_level / 100.0) * num_bars)`. -/
def bars_to_fill (battery_level : ℚ) (num_bars : ℕ) : ℤ :=
  pyInt (battery_level / 100 * (num_bars : ℚ))

/-- Line 228: `bar_y = y + i * (bar_height + bar_spacing)`. -/
def seg_bar_y (y height : ℤ) (num_bars : ℕ) (i : ℕ) : ℤ :=
  y + (i : ℤ) * (bar_height_of height num_bars + 2)

/-- Line 249: `(battery_level % (100.0 / num_bars)) / (100.0 / num_bars)`. -/
def fill_frac (battery_level : ℚ) (num_bars : ℕ) : ℚ :=
  pyMod battery_level (100 / (num_bars : ℚ)) / (100 / (num_bars : ℚ))

/-- The draw calls one loop iteration of `draw_vertical_charge_bars`
issues for segment `i`. -/
structure SegOps where
  skipped : Bool
  outline : Option Rect
  fullFill : Option Rect
  partFill : Option Rect
deriving DecidableEq, Repr

/-- Loop body of `draw_vertical_charge_bars` (lines 227-254) for segment
`i`: skip entirely when `bar_y + bar_height >= logical_height - 10`;
otherwise draw the outline, then a full inner fill when
`num_bars - 1 - i < bars_to_fill`, or, when `num_bars - 1 - i ==
bars_to_fill` and the fill fraction is positive, a horizontal inner fill
of width `max(1, int((width - 2) * fill_percentage))`. -/
def seg_ops (lw lh x y width height : ℤ) (battery_level : ℚ)
    (num_bars : ℕ) (i : ℕ) : SegOps :=
  let bh := bar_height_of height num_bars
  let bary := seg_bar_y y height num_bars i
  if lh - 10 ≤ bary + bh then
    ⟨true, none, none, none⟩
  else
    let outline := safe_rectangle lw lh x bary (x + width) (bary + bh)
    let bfb : ℤ := (num_bars : ℤ) - 1 - (i : ℤ)
    let btf := bars_to_fill battery_level num_bars
    if bfb < btf then
      ⟨false, outline,
        safe_rectangle lw lh (x + 1) (bary + 1) (x + width - 1) (bary + bh - 1),
        none⟩
    else if bfb = btf then
      if 0 < fill_frac battery_level num_bars then
        let fw := max 1 (pyInt (((width : ℚ) - 2) * fill_frac battery_level num_bars))
        ⟨false, outline, none,
          safe_rectangle lw lh (x + 1) (bary + 1) (x + 1 + fw) (bary + bh - 1)⟩
      else ⟨false, outline, none, none⟩
    else ⟨false, outline, none, none⟩

/-- Number of segments for which `draw_vertical_charge_bars` issues a full
inner fill. -/
def fullyFilledCount (lw lh x y width height : ℤ) (battery_level : ℚ)
    (num_bars : ℕ) : ℕ :=
  ((List.range num_bars).filter
    (fun i => (seg_ops lw lh x y width height battery_level num_bars i).fullFill.isSome)).length

/-- Number of segments for which `draw_vertical_charge_bars` issues a
horizontal (straddling) inner fill. -/
def partFilledCount (lw lh x y width height : ℤ) (battery_level : ℚ)
    (num_bars : ℕ) : ℕ :=
  ((List.range num_bars).filter
    (fun i => (seg_ops lw lh x y width height battery_level num_bars i).partFill.isSome)).length

/-- A PIL image: dimensions plus pixel contents. -/
structure Img where
  width : ℤ
  height : ℤ
  pix : ℤ → ℤ → Bool

/-- `Image.transpose(Image.ROTATE_90)`: rotate 90° counterclockwise; the
output pixel `(px, py)` comes from input pixel `(width - 1 - py, px)`. -/
def rot90 (img : Img) : Img :=
  ⟨img.height, img.width, fun px py => img.pix (img.width - 1 - py) px⟩

/-- `Image.transpose(Image.ROTATE_270)`: rotate 270° counterclockwise
(i.e. 90° clockwise); the output pixel `(px, py)` comes from input pixel
`(py, height - 1 - px)`. -/
def rot270 (img : Img) : Img :=
  ⟨img.height, img.width, fun px py => img.pix py (img.height - 1 - px)⟩

/-- `Image.new("1", (w, h))`: an all-dark image. -/
def blank_img (w h : ℤ) : Img := ⟨w, h, fun _ _ => false⟩

/-- `dst.paste(src, (0, 0))`: pixels inside the source extent come from the
source, the rest keep the destination contents. -/
def paste_at_origin (dst src : Img) : Img :=
  ⟨dst.width, dst.height, fun px py =>
    if 0 ≤ px ∧ px < src.width ∧ 0 ≤ py ∧ py < src.height then src.pix px py
    else dst.pix px py⟩

/-- Lines 388-402 of `show_solar_panel_mode`: convert the logical image to
the physical display.  For rotation 90 the logical canvas is
counter-rotated with `ROTATE_270` and pasted at the origin of a blank
physical-size image; for rotation 270 with `ROTATE_90`; otherwise the
logical image is used as-is. -/
def final_display_image (rotation pw ph : ℤ) (image : Img) : Img :=
  if rotation = 90 ∨ rotation = 270 then
    let rotated := if rotation = 90 then rot270 image else rot90 image
    paste_at_origin (blank_img pw ph) rotated
  else image

/-- All four coordinates of a quadruple lie in the logical drawing range
`[0, lw-1] × [0, lh-1]`. -/
def coords_in_range (lw lh : ℤ) (r : Rect) : Prop :=
  0 ≤ r.x1 ∧ r.x1 ≤ lw - 1 ∧ 0 ≤ r.y1 ∧ r.y1 ≤ lh - 1 ∧
    0 ≤ r.x2 ∧ r.x2 ≤ lw - 1 ∧ 0 ≤ r.y2 ∧ r.y2 ≤ lh - 1

instance (lw lh : ℤ) (r : Rect) : Decidable (coords_in_range lw lh r) := by
  unfold coords_in_range
  infer_instance

/-- An available controller in landscape orientation with a fresh
animation counter, as produced by a successful constructor run. -/
def s_avail : DCState := { dc_init 128 64 0x3C 0 with available := true }

/-! ### Helper lemmas about the drawing primitives -/

theorem clamp_coord_mem (limit v : ℤ) (h : 1 ≤ limit) :
    0 ≤ clamp_coord limit v ∧ clamp_coord limit v ≤ limit - 1 := by
  unfold clamp_coord
  omega

theorem clamp_coord_eq_self (limit v : ℤ) (h0 : 0 ≤ v) (h1 : v ≤ limit - 1) :
    clamp_coord limit v = v := by
  unfold clamp_coord
  omega

theorem safe_rect_coords_bounds (lw lh x1 y1 x2 y2 : ℤ)
    (hw : 1 ≤ lw) (hh : 1 ≤ lh) :
    coords_in_range lw lh (safe_rect_coords lw lh x1 y1 x2 y2) ∧
      (safe_rect_coords lw lh x1 y1 x2 y2).x1 ≤ (safe_rect_coords lw lh x1 y1 x2 y2).x2 ∧
      (safe_rect_coords lw lh x1 y1 x2 y2).y1 ≤ (safe_rect_coords lw lh x1 y1 x2 y2).y2 := by
  simp only [safe_rect_coords, coords_in_range, clamp_coord]
  split_ifs <;> simp_all <;> omega

theorem safe_rectangle_of_inbounds (lw lh a b c d : ℤ)
    (h1 : 0 ≤ a) (h2 : a < c) (h3 : c ≤ lw - 1)
    (h4 : 0 ≤ b) (h5 : b < d) (h6 : d ≤ lh - 1) :
    safe_rectangle lw lh a b c d = some ⟨a, b, c, d⟩ := by
  have ea : clamp_coord lw a = a := clamp_coord_eq_self _ _ h1 (by omega)
  have ec : clamp_coord lw c = c := clamp_coord_eq_self _ _ (by omega) h3
  have eb : clamp_coord lh b = b := clamp_coord_eq_self _ _ h4 (by omega)
  have ed : clamp_coord lh d = d := clamp_coord_eq_self _ _ (by omega) h6
  have hca : ¬ (c < a) := by omega
  have hdb : ¬ (d < b) := by omega
  simp only [safe_rectangle, safe_rect_coords, ea, eb, ec, ed, hca, hdb,
    if_false, ite_false]
  rw [if_pos ⟨h2, h5⟩]

/-! ### C1 — coordinate safety of the drawing primitives -/

/-- C1 (amended): both primitives clamp every coordinate into
`[0, lw-1] × [0, lh-1]` and are total (never raise); the RECTANGLE orders
the pair and issues no draw call — leaving the canvas unchanged — exactly
when the clamped, ordered span has zero width or height; the LINE always
issues its draw call with the clamped endpoints (no zero-span guard). -/
theorem C1_coordinate_safety (lw lh x1 y1 x2 y2 : ℤ) (cv : Canvas)
    (hw : 1 ≤ lw) (hh : 1 ≤ lh) :
    coords_in_range lw lh (safe_rect_coords lw lh x1 y1 x2 y2) ∧
    (safe_rect_coords lw lh x1 y1 x2 y2).x1 ≤ (safe_rect_coords lw lh x1 y1 x2 y2).x2 ∧
    (safe_rect_coords lw lh x1 y1 x2 y2).y1 ≤ (safe_rect_coords lw lh x1 y1 x2 y2).y2 ∧
    (safe_rectangle lw lh x1 y1 x2 y2 = none ↔
      ((safe_rect_coords lw lh x1 y1 x2 y2).x1 = (safe_rect_coords lw lh x1 y1 x2 y2).x2 ∨
        (safe_rect_coords lw lh x1 y1 x2 y2).y1 = (safe_rect_coords lw lh x1 y1 x2 y2).y2)) ∧
    (apply_rect_fill (safe_rectangle lw lh x1 y1 x2 y2) cv = cv ∨
      safe_rectangle lw lh x1 y1 x2 y2 ≠ none) ∧
    coords_in_range lw lh (safe_line lw lh x1 y1 x2 y2) := by
  obtain ⟨hr, hx12, hy12⟩ := safe_rect_coords_bounds lw lh x1 y1 x2 y2 hw hh
  refine ⟨hr, hx12, hy12, ?_, ?_, ?_⟩
  · simp only [safe_rectangle]
    split_ifs with hc
    · constructor
      · intro h
        exact absurd h (by simp)
      · intro h
        exfalso
        omega
    · constructor
      · intro _
        omega
      · intro _
        rfl
  · by_cases h : safe_rectangle lw lh x1 y1 x2 y2 = none
    · left
      rw [h]
      rfl
    · right
      exact h
  · simp only [safe_line, coords_in_range, clamp_coord]
    omega

/-- C1 witness: a quadruple entirely outside a 64 × 128 logical canvas. -/
theorem C1_coordinate_safety_witness :
    (coords_in_range 64 128 (safe_rect_coords 64 128 (-10) (-10) (-5) (-5)) ∧
      (safe_rect_coords 64 128 (-10) (-10) (-5) (-5)).x1 ≤ (safe_rect_coords 64 128 (-10) (-10) (-5) (-5)).x2 ∧
      (safe_rect_coords 64 128 (-10) (-10) (-5) (-5)).y1 ≤ (safe_rect_coords 64 128 (-10) (-10) (-5) (-5)).y2 ∧
      (safe_rectangle 64 128 (-10) (-10) (-5) (-5) = none ↔
        ((safe_rect_coords 64 128 (-10) (-10) (-5) (-5)).x1 = (safe_rect_coords 64 128 (-10) (-10) (-5) (-5)).x2 ∨
          (safe_rect_coords 64 128 (-10) (-10) (-5) (-5)).y1 = (safe_rect_coords 64 128 (-10) (-10) (-5) (-5)).y2)) ∧
      (apply_rect_fill (safe_rectangle 64 128 (-10) (-10) (-5) (-5)) blank_canvas = blank_canvas ∨
        safe_rectangle 64 128 (-10) (-10) (-5) (-5) ≠ none) ∧
      coords_in_range 64 128 (safe_line 64 128 (-10) (-10) (-5) (-5))) :=
  C1_coordinate_safety 64 128 (-10) (-10) (-5) (-5) blank_canvas (by norm_num) (by norm_num)

/-- C1 counterexample to the claim as stated: `safe_line` on a quadruple
entirely outside the canvas clamps to the degenerate segment
`(0,0)-(0,0)` — zero width and height — yet still draws, lighting pixel
`(0,0)` of a blank canvas instead of leaving it unchanged. -/
theorem C1_counterexample :
    safe_line 64 128 (-10) (-10) (-5) (-5) = ⟨0, 0, 0, 0⟩ ∧
    apply_line (safe_line 64 128 (-10) (-10) (-5) (-5)) blank_canvas 0 0 = true ∧
    blank_canvas 0 0 = false :=
  ⟨by decide, by decide, rfl⟩

/-! ### C10 — rectangle primitive is invariant under corner exchange -/

theorem safe_rect_coords_swap (lw lh a b c d : ℤ) :
    safe_rect_coords lw lh c d a b = safe_rect_coords lw lh a b c d := by
  simp only [safe_rect_coords]
  split_ifs <;> simp_all [Rect.mk.injEq] <;> omega

/-- C10: exchanging the two supplied corners changes neither the draw call
`safe_rectangle` issues nor the resulting canvas. -/
theorem C10_rectangle_order_invariance (lw lh x1 y1 x2 y2 : ℤ) (cv : Canvas) :
    safe_rectangle lw lh x2 y2 x1 y1 = safe_rectangle lw lh x1 y1 x2 y2 ∧
    apply_rect_fill (safe_rectangle lw lh x2 y2 x1 y1) cv =
      apply_rect_fill (safe_rectangle lw lh x1 y1 x2 y2) cv := by
  have h : safe_rectangle lw lh x2 y2 x1 y1 = safe_rectangle lw lh x1 y1 x2 y2 := by
    simp only [safe_rectangle, safe_rect_coords_swap]
  exact ⟨h, by rw [h]⟩

/-! ### C2 / C3 — mode selection of `update_status` -/

/-- C2 counterexample to the claim as stated: the snapshot
`batteryPercent = 50, isCharging = false, solarWatts = 0` makes
`update_status` select the SOLAR view, not the Normal one — no branch of
`update_status` ever selects `'normal'`. -/
theorem C2_counterexample :
    (update_status true true s_avail 50 false 0).display_mode = DisplayMode.solar ∧
    DisplayMode.solar ≠ DisplayMode.normal := by
  decide

/-- C2 (amended): for every snapshot with `batteryPercent ≥ 15` — whatever
`isCharging` and `solarWatts` are — a status update selects the SolarCharge
view (solar is the hard-coded default, lines 425-430); the Normal view is
never selected.  The mode is recomputed fresh on every call: the prior
`display_mode` of `s` is arbitrary here. -/
theorem C2_mode_default (display_ok : Bool) (s : DCState)
    (battery_level solar_power : ℚ) (is_charging : Bool)
    (hav : s.available = true) (hbl : 15 ≤ battery_level) :
    (update_status true display_ok s battery_level is_charging solar_power).display_mode
      = DisplayMode.solar := by
  have h15 : ¬ battery_level < 15 := not_lt.mpr hbl
  cases display_ok <;>
    simp [update_status, show_solar_panel_mode, hav, h15]

/-- C2 witness. -/
theorem C2_mode_default_witness :
    (update_status true true s_avail 50 false 0).display_mode = DisplayMode.solar :=
  C2_mode_default true s_avail 50 0 false rfl (by norm_num)

/-- C3: for every snapshot with `batteryPercent < 15`, a status update
selects the BatteryFocus view, regardless of `isCharging` and
`solarWatts`; the mode is recomputed fresh (prior `display_mode`
arbitrary). -/
theorem C3_battery_focus_priority (display_ok : Bool) (s : DCState)
    (battery_level solar_power : ℚ) (is_charging : Bool)
    (hav : s.available = true) (hbl : battery_level < 15) :
    (update_status true display_ok s battery_level is_charging solar_power).display_mode
      = DisplayMode.battery := by
  simp [update_status, show_battery_focus, hav, hbl]

/-- C3 witness: `batteryPercent = 10` while charging with 1.2 W of solar
input still selects BatteryFocus. -/
theorem C3_battery_focus_priority_witness :
    (update_status true true s_avail 10 true (6/5)).display_mode = DisplayMode.battery :=
  C3_battery_focus_priority true s_avail 10 (6/5) true rfl (by norm_num)

/-! ### C4 — the animation counter -/

theorem solar_iter_frame (n : ℕ) (hn : n ≤ 360) :
    ((fun t => show_solar_panel_mode true t)^[n] s_avail).animation_frame = (n : ℤ) ∧
    ((fun t => show_solar_panel_mode true t)^[n] s_avail).available = true := by
  induction n with
  | zero => exact ⟨rfl, rfl⟩
  | succ k ih =>
    obtain ⟨hf, hv⟩ := ih (by omega)
    rw [Function.iterate_succ_apply']
    generalize hX : (fun t => show_solar_panel_mode true t)^[k] s_avail = X at hf hv ⊢
    have hk : ¬ (360 : ℤ) < (k : ℤ) + 1 := by
      have : (k : ℤ) + 1 ≤ 360 := by exact_mod_cast hn
      omega
    constructor
    · simp only [show_solar_panel_mode, hv, Bool.true_eq_false, if_false, if_true, hf, hk]
      push_cast
      ring
    · simp only [show_solar_panel_mode, hv, Bool.true_eq_false, if_false, if_true]

/-- C4 counterexample to the claim as stated: a render tick that selects
the BatteryFocus view (`batteryPercent = 10`) leaves the animation counter
at 0 instead of incrementing it, and 360 consecutive solar render ticks
from a fresh counter leave it at 360, not back at 0 (the code only resets
once the counter exceeds 360). -/
theorem C4_counterexample :
    s_avail.animation_frame = 0 ∧
    (update_status true true s_avail 10 true 0).animation_frame = 0 ∧
    ((fun t => show_solar_panel_mode true t)^[360] s_avail).animation_frame = 360 := by
  refine ⟨rfl, by decide, ?_⟩
  exact_mod_cast (solar_iter_frame 360 le_rfl).1

/-- C4 (amended): only a SolarCharge render advances the animation counter
(by exactly 1); BatteryFocus and Normal renders leave it unchanged; the
counter is reset to 0 only once it exceeds 360, so it ranges over
`[0, 360]` and returns to 0 after 361 consecutive solar renders from a
fresh start. -/
theorem C4_animation_counter (s : DCState) (hav : s.available = true) :
    (show_solar_panel_mode true s).animation_frame
        = (if 360 < s.animation_frame + 1 then 0 else s.animation_frame + 1) ∧
    (show_battery_focus s).animation_frame = s.animation_frame ∧
    (show_normal_status s).animation_frame = s.animation_frame ∧
    ((fun t => show_solar_panel_mode true t)^[361] s_avail).animation_frame = 0 := by
  refine ⟨by simp [show_solar_panel_mode, hav], rfl, rfl, ?_⟩
  obtain ⟨hf, hv⟩ := solar_iter_frame 360 le_rfl
  rw [show (361 : ℕ) = 360 + 1 from rfl, Function.iterate_succ_apply']
  generalize hX : (fun t => show_solar_panel_mode true t)^[360] s_avail = X at hf hv ⊢
  simp only [show_solar_panel_mode, hv, Bool.true_eq_false, if_false, if_true, hf]
  norm_num

/-- C4 witness. -/
theorem C4_animation_counter_witness :
    (show_solar_panel_mode true s_avail).animation_frame
        = (if 360 < s_avail.animation_frame + 1 then 0 else s_avail.animation_frame + 1) ∧
    (show_battery_focus s_avail).animation_frame = s_avail.animation_frame ∧
    (show_normal_status s_avail).animation_frame = s_avail.animation_frame ∧
    ((fun t => show_solar_panel_mode true t)^[361] s_avail).animation_frame = 0 :=
  C4_animation_counter s_avail rfl

/-! ### C5 — the logical/physical geometry invariant -/

/-- A hardware environment in which the only responding panel is a
128 × 32 SSD1306 at I2C address 0x3D. -/
def panel_at_3D_128x32 : ℤ → ℤ → ℤ → Bool :=
  fun a w h => a == 0x3D && w == 128 && h == 32

/-- C5: the invariant `logicalWidth * logicalHeight = physicalWidth *
physicalHeight` is BROKEN by the code when auto-detection finds a panel
size different from the constructor arguments: constructed as 128 × 64,
rotation 0, auto-detected as 128 × 32, the controller ends available with
logical dimensions still 128 × 64 but physical dimensions 128 × 32
(8192 ≠ 4096) — `_initialize_display` overwrites the physical dimensions
(despite the `__init__` comment "never change these") without recomputing
the logical ones. -/
theorem C5_geometry_violation :
    (mk_controller panel_at_3D_128x32 128 64 0x3C true 0).available = true ∧
    (mk_controller panel_at_3D_128x32 128 64 0x3C true 0).logical_width = 128 ∧
    (mk_controller panel_at_3D_128x32 128 64 0x3C true 0).logical_height = 64 ∧
    (mk_controller panel_at_3D_128x32 128 64 0x3C true 0).physical_width = 128 ∧
    (mk_controller panel_at_3D_128x32 128 64 0x3C true 0).physical_height = 32 ∧
    ¬ (mk_controller panel_at_3D_128x32 128 64 0x3C true 0).logical_width *
          (mk_controller panel_at_3D_128x32 128 64 0x3C true 0).logical_height =
        (mk_controller panel_at_3D_128x32 128 64 0x3C true 0).physical_width *
          (mk_controller panel_at_3D_128x32 128 64 0x3C true 0).physical_height := by
  decide

/-! ### C9 — no fatal error -/

/-- C9: a status update never escapes to the caller.  When the component is
unavailable (configuration error at construction) the call is a strict
no-op on the renderer state; when the snapshot read raises, the exception
is caught with nothing yet mutated and the call returns the state
unchanged (frame skipped); when the drawing or panel write raises inside
the selected view, the exception is caught there and the animation counter
advance is skipped.  All failure paths return normally by construction of
the (total) model. -/
theorem C9_no_fatal_error (snapshot_ok display_ok : Bool) (s : DCState)
    (battery_level solar_power : ℚ) (is_charging : Bool)
    (hun : s.available = false) :
    update_status snapshot_ok display_ok s battery_level is_charging solar_power = s ∧
    update_status false display_ok { s with available := true }
        battery_level is_charging solar_power = { s with available := true } ∧
    (update_status true false { s with available := true }
        battery_level is_charging solar_power).animation_frame = s.animation_frame := by
  refine ⟨?_, ?_, ?_⟩
  · simp [update_status, hun]
  · simp [update_status]
  · by_cases hbl : battery_level < 15 <;>
      simp [update_status, show_solar_panel_mode, show_battery_focus, hbl]

/-- C9 witness. -/
theorem C9_no_fatal_error_witness :
    update_status true true (dc_init 128 64 0x3C 0) 50 false 0 = dc_init 128 64 0x3C 0 ∧
    update_status false true { dc_init 128 64 0x3C 0 with available := true }
        50 false 0 = { dc_init 128 64 0x3C 0 with available := true } ∧
    (update_status true false { dc_init 128 64 0x3C 0 with available := true }
        50 false 0).animation_frame = (dc_init 128 64 0x3C 0).animation_frame :=
  C9_no_fatal_error true true (dc_init 128 64 0x3C 0) 50 0 false rfl

/-! ### C8 — rotation mapping from logical to physical canvas -/

/-- C8: with rotation 0 the returned bitmap IS the logical canvas (pixel
identity everywhere); with rotation 90 the logical top-left pixel `(0,0)`
lands on the physical top-right corner `(physicalWidth - 1, 0)` after the
`ROTATE_270` counter-rotation and the paste at the origin. -/
theorem C8_rotation_mapping (pw ph : ℤ) (img : Img)
    (hw : img.width = ph) (hh : img.height = pw)
    (hpw : 1 ≤ pw) (hph : 1 ≤ ph) (lx ly : ℤ) :
    (final_display_image 0 pw ph img).pix lx ly = img.pix lx ly ∧
    (final_display_image 90 pw ph img).pix (pw - 1) 0 = img.pix 0 0 := by
  constructor
  · simp [final_display_image]
  · simp only [final_display_image, paste_at_origin, rot270, blank_img]
    norm_num
    have h2 : pw - 1 < img.height := by omega
    have h3 : 0 < img.width := by omega
    have h4 : img.height - pw = 0 := by omega
    simp [hpw, h2, h3, h4]

/-- C8 witness image: a 64 × 128 logical canvas with only `(0,0)` lit. -/
def c8_test_img : Img := ⟨64, 128, fun a b => a == 0 && b == 0⟩

/-- C8 witness. -/
theorem C8_rotation_mapping_witness :
    (final_display_image 0 128 64 c8_test_img).pix 5 7 = c8_test_img.pix 5 7 ∧
    (final_display_image 90 128 64 c8_test_img).pix (128 - 1) 0 = c8_test_img.pix 0 0 :=
  C8_rotation_mapping 128 64 c8_test_img rfl rfl (by norm_num) (by norm_num) 5 7

/-! ### Arithmetic facts about the charge-bar quantities -/

theorem pyInt_of_nonneg (q : ℚ) (h : 0 ≤ q) : pyInt q = ⌊q⌋ := by
  unfold pyInt
  rw [if_neg (not_lt.mpr h)]

theorem pyMod_nonneg (a b : ℚ) (hb : 0 < b) : 0 ≤ pyMod a b := by
  unfold pyMod
  have h1 : ((⌊a / b⌋ : ℤ) : ℚ) ≤ a / b := Int.floor_le _
  have h2 : b * ((⌊a / b⌋ : ℤ) : ℚ) ≤ b * (a / b) := mul_le_mul_of_nonneg_left h1 hb.le
  have h3 : b * (a / b) = a := by field_simp
  linarith

theorem pyMod_lt (a b : ℚ) (hb : 0 < b) : pyMod a b < b := by
  unfold pyMod
  have h1 : a / b < (⌊a / b⌋ : ℚ) + 1 := Int.lt_floor_add_one _
  have h2 : b * (a / b) < b * ((⌊a / b⌋ : ℚ) + 1) := (mul_lt_mul_left hb).mpr h1
  have h3 : b * (a / b) = a := by field_simp
  rw [mul_add, mul_one] at h2
  linarith

theorem natCast_q_pos (N : ℕ) (hN : 1 ≤ N) : (0 : ℚ) < (N : ℚ) := by
  exact_mod_cast hN

theorem hundred_div_pos (N : ℕ) (hN : 1 ≤ N) : (0 : ℚ) < 100 / (N : ℚ) :=
  div_pos (by norm_num) (natCast_q_pos N hN)

theorem pyMod_hundred (N : ℕ) (hN : 1 ≤ N) : pyMod 100 (100 / (N : ℚ)) = 0 := by
  have hN0 : (N : ℚ) ≠ 0 := ne_of_gt (natCast_q_pos N hN)
  have h : (100 : ℚ) / (100 / (N : ℚ)) = (N : ℚ) := by field_simp
  unfold pyMod
  rw [h, Int.floor_natCast]
  field_simp

theorem bars_to_fill_nonneg (p : ℚ) (N : ℕ) (hp0 : 0 ≤ p) :
    0 ≤ bars_to_fill p N := by
  unfold bars_to_fill
  rw [pyInt_of_nonneg _ (by positivity)]
  exact Int.floor_nonneg.mpr (by positivity)

theorem bars_to_fill_eq_floor (p : ℚ) (N : ℕ) (hp0 : 0 ≤ p) :
    bars_to_fill p N = ⌊p * (N : ℚ) / 100⌋ := by
  unfold bars_to_fill
  rw [pyInt_of_nonneg _ (by positivity)]
  congr 1
  ring

theorem bars_to_fill_le (p : ℚ) (N : ℕ) (hp0 : 0 ≤ p) (hp1 : p ≤ 100) :
    bars_to_fill p N ≤ (N : ℤ) := by
  rw [bars_to_fill_eq_floor p N hp0]
  have h : p * (N : ℚ) / 100 ≤ (N : ℚ) := by
    have h1 : p * (N : ℚ) ≤ 100 * (N : ℚ) :=
      mul_le_mul_of_nonneg_right hp1 (Nat.cast_nonneg N)
    linarith
  calc ⌊p * (N : ℚ) / 100⌋ ≤ ⌊((N : ℤ) : ℚ)⌋ := Int.floor_le_floor (by exact_mod_cast h)
    _ = (N : ℤ) := Int.floor_intCast _

theorem bars_to_fill_lt (p : ℚ) (N : ℕ) (hp0 : 0 ≤ p) (hp1 : p < 100)
    (hN : 1 ≤ N) : bars_to_fill p N < (N : ℤ) := by
  rw [bars_to_fill_eq_floor p N hp0]
  refine Int.floor_lt.mpr ?_
  have h1 : p * (N : ℚ) < 100 * (N : ℚ) :=
    mul_lt_mul_of_pos_right hp1 (natCast_q_pos N hN)
  push_cast
  linarith

theorem fill_frac_nonneg (p : ℚ) (N : ℕ) (hN : 1 ≤ N) : 0 ≤ fill_frac p N :=
  div_nonneg (pyMod_nonneg _ _ (hundred_div_pos N hN)) (hundred_div_pos N hN).le

theorem fill_frac_lt_one (p : ℚ) (N : ℕ) (hN : 1 ≤ N) : fill_frac p N < 1 :=
  (div_lt_one (hundred_div_pos N hN)).mpr (pyMod_lt _ _ (hundred_div_pos N hN))

theorem fill_frac_pos (p : ℚ) (N : ℕ) (hN : 1 ≤ N)
    (hm : pyMod p (100 / (N : ℚ)) ≠ 0) : 0 < fill_frac p N :=
  div_pos (lt_of_le_of_ne (pyMod_nonneg _ _ (hundred_div_pos N hN)) (Ne.symm hm))
    (hundred_div_pos N hN)

theorem fill_frac_of_pyMod_zero (p : ℚ) (N : ℕ)
    (hm : pyMod p (100 / (N : ℚ)) = 0) : fill_frac p N = 0 := by
  unfold fill_frac
  rw [hm, zero_div]

/-! ### Counting filtered ranges -/

theorem length_filter_range_le (N k : ℕ) :
    ((List.range N).filter (fun i => decide (k ≤ i))).length = N - k := by
  induction N with
  | zero => simp
  | succ n ih =>
    rw [List.range_succ, List.filter_append, List.length_append, ih]
    by_cases h : k ≤ n
    · simp only [List.filter_cons, List.filter_nil, decide_eq_true_eq, if_pos h]
      simp only [List.length_cons, List.length_nil]
      omega
    · simp only [List.filter_cons, List.filter_nil, decide_eq_true_eq, if_neg h]
      simp only [List.length_nil]
      omega

theorem length_filter_range_eq (N j : ℕ) :
    ((List.range N).filter (fun i => decide (i = j))).length
      = if j < N then 1 else 0 := by
  induction N with
  | zero => simp
  | succ n ih =>
    rw [List.range_succ, List.filter_append, List.length_append, ih]
    by_cases h : n = j
    · simp only [List.filter_cons, List.filter_nil, decide_eq_true_eq, if_pos h]
      simp only [List.length_cons, List.length_nil]
      split_ifs <;> omega
    · simp only [List.filter_cons, List.filter_nil, decide_eq_true_eq, if_neg h]
      simp only [List.length_nil]
      split_ifs <;> omega

/-! ### Characterisation of one charge-bar loop iteration -/

/-- Under the geometry of a call site where every segment fits above the
reserved bottom strip and inside the logical canvas, one loop iteration of
`draw_vertical_charge_bars` is never skipped, always draws its outline,
draws the full inner fill exactly for the `bars_to_fill` bottommost
segments, and draws the horizontal straddling fill exactly on the segment
whose bottom-index equals `bars_to_fill` when the fill fraction is
positive. -/
theorem seg_ops_spec (lw lh x y width height : ℤ) (p : ℚ) (N i : ℕ)
    (hi : i < N)
    (hp0 : 0 ≤ p) (hp1 : p ≤ 100) (hN : 1 ≤ N)
    (hx0 : 0 ≤ x) (hxw : x + width ≤ lw - 1) (hw3 : 3 ≤ width)
    (hy0 : 0 ≤ y) (hbh3 : 3 ≤ bar_height_of height N)
    (hfit : y + ((N : ℤ) - 1) * (bar_height_of height N + 2) + bar_height_of height N
      < lh - 10) :
    seg_ops lw lh x y width height p N i =
      { skipped := false
        outline := some ⟨x, seg_bar_y y height N i, x + width,
          seg_bar_y y height N i + bar_height_of height N⟩
        fullFill :=
          if (N : ℤ) - 1 - (i : ℤ) < bars_to_fill p N then
            some ⟨x + 1, seg_bar_y y height N i + 1, x + width - 1,
              seg_bar_y y height N i + bar_height_of height N - 1⟩
          else none
        partFill :=
          if (N : ℤ) - 1 - (i : ℤ) = bars_to_fill p N ∧ 0 < fill_frac p N then
            some ⟨x + 1, seg_bar_y y height N i + 1,
              x + 1 + max 1 (pyInt (((width : ℚ) - 2) * fill_frac p N)),
              seg_bar_y y height N i + bar_height_of height N - 1⟩
          else none } := by
  have hbary_lo : y ≤ seg_bar_y y height N i := by
    have h0 : 0 ≤ (i : ℤ) * (bar_height_of height N + 2) :=
      mul_nonneg (Int.natCast_nonneg i) (by omega)
    unfold seg_bar_y
    omega
  have hbary_hi : seg_bar_y y height N i + bar_height_of height N < lh - 10 := by
    have hiN : (i : ℤ) ≤ (N : ℤ) - 1 := by
      have : (i : ℤ) < (N : ℤ) := by exact_mod_cast hi
      omega
    have hmul : (i : ℤ) * (bar_height_of height N + 2)
        ≤ ((N : ℤ) - 1) * (bar_height_of height N + 2) :=
      mul_le_mul_of_nonneg_right hiN (by omega)
    unfold seg_bar_y
    omega
  have hfw : max 1 (pyInt (((width : ℚ) - 2) * fill_frac p N)) ≤ width - 2 := by
    have hw2q : (0 : ℚ) < (width : ℚ) - 2 := by
      have : (3 : ℚ) ≤ (width : ℚ) := by exact_mod_cast hw3
      linarith
    have hv0 : 0 ≤ ((width : ℚ) - 2) * fill_frac p N :=
      mul_nonneg hw2q.le (fill_frac_nonneg p N hN)
    have hvlt : ((width : ℚ) - 2) * fill_frac p N < (width : ℚ) - 2 :=
      mul_lt_of_lt_one_right hw2q (fill_frac_lt_one p N hN)
    have hfl : pyInt (((width : ℚ) - 2) * fill_frac p N) < width - 2 := by
      rw [pyInt_of_nonneg _ hv0]
      refine Int.floor_lt.mpr ?_
      push_cast
      linarith
    omega
  unfold seg_ops
  rw [if_neg (by omega)]
  rw [safe_rectangle_of_inbounds lw lh x (seg_bar_y y height N i) (x + width)
    (seg_bar_y y height N i + bar_height_of height N)
    hx0 (by omega) (by omega) (by omega) (by omega) (by omega)]
  by_cases h1 : (N : ℤ) - 1 - (i : ℤ) < bars_to_fill p N
  · rw [if_pos h1, if_pos h1,
      if_neg (by rintro ⟨he, -⟩; omega),
      safe_rectangle_of_inbounds lw lh (x + 1) (seg_bar_y y height N i + 1)
        (x + width - 1) (seg_bar_y y height N i + bar_height_of height N - 1)
        (by omega) (by omega) (by omega) (by omega) (by omega) (by omega)]
  · rw [if_neg h1, if_neg h1]
    by_cases h2 : (N : ℤ) - 1 - (i : ℤ) = bars_to_fill p N
    · rw [if_pos h2]
      by_cases h3 : 0 < fill_frac p N
      · rw [if_pos h3, if_pos ⟨h2, h3⟩]
        dsimp only
        rw [safe_rectangle_of_inbounds lw lh (x + 1) (seg_bar_y y height N i + 1)
            (x + 1 + max 1 (pyInt (((width : ℚ) - 2) * fill_frac p N)))
            (seg_bar_y y height N i + bar_height_of height N - 1)
            (by omega) (by omega) (by omega) (by omega) (by omega) (by omega)]
      · rw [if_neg h3, if_neg (by rintro ⟨-, hp⟩; exact h3 hp)]
    · rw [if_neg h2, if_neg (by rintro ⟨he, -⟩; exact h2 he)]

theorem fullyFilledCount_eq (lw lh x y width height : ℤ) (p : ℚ) (N : ℕ)
    (hp0 : 0 ≤ p) (hp1 : p ≤ 100) (hN : 1 ≤ N)
    (hx0 : 0 ≤ x) (hxw : x + width ≤ lw - 1) (hw3 : 3 ≤ width)
    (hy0 : 0 ≤ y) (hbh3 : 3 ≤ bar_height_of height N)
    (hfit : y + ((N : ℤ) - 1) * (bar_height_of height N + 2) + bar_height_of height N
      < lh - 10) :
    (fullyFilledCount lw lh x y width height p N : ℤ) = ⌊p * (N : ℚ) / 100⌋ := by
  have hb0 : 0 ≤ bars_to_fill p N := bars_to_fill_nonneg p N hp0
  have hbN : bars_to_fill p N ≤ (N : ℤ) := bars_to_fill_le p N hp0 hp1
  have ht : ((bars_to_fill p N).toNat : ℤ) = bars_to_fill p N := Int.toNat_of_nonneg hb0
  have hpred : ∀ i ∈ List.range N,
      ((seg_ops lw lh x y width height p N i).fullFill.isSome)
        = decide ((N - (bars_to_fill p N).toNat) ≤ i) := by
    intro i hi
    rw [List.mem_range] at hi
    rw [seg_ops_spec lw lh x y width height p N i hi hp0 hp1 hN hx0 hxw hw3 hy0 hbh3 hfit]
    by_cases h : (N : ℤ) - 1 - (i : ℤ) < bars_to_fill p N
    · rw [if_pos h]
      have hle : (N - (bars_to_fill p N).toNat) ≤ i := by omega
      simp [hle]
    · rw [if_neg h]
      have hle : ¬ (N - (bars_to_fill p N).toNat) ≤ i := by omega
      simp [hle]
  unfold fullyFilledCount
  rw [List.filter_congr hpred, length_filter_range_le]
  rw [← bars_to_fill_eq_floor p N hp0]
  omega

theorem partFilledCount_eq (lw lh x y width height : ℤ) (p : ℚ) (N : ℕ)
    (hp0 : 0 ≤ p) (hp1 : p ≤ 100) (hN : 1 ≤ N)
    (hx0 : 0 ≤ x) (hxw : x + width ≤ lw - 1) (hw3 : 3 ≤ width)
    (hy0 : 0 ≤ y) (hbh3 : 3 ≤ bar_height_of height N)
    (hfit : y + ((N : ℤ) - 1) * (bar_height_of height N + 2) + bar_height_of height N
      < lh - 10) :
    partFilledCount lw lh x y width height p N
      = if pyMod p (100 / (N : ℚ)) = 0 then 0 else 1 := by
  unfold partFilledCount
  by_cases hm : pyMod p (100 / (N : ℚ)) = 0
  · have hfr : fill_frac p N = 0 := fill_frac_of_pyMod_zero p N hm
    have hpred : ∀ i ∈ List.range N,
        ((seg_ops lw lh x y width height p N i).partFill.isSome) = false := by
      intro i hi
      rw [List.mem_range] at hi
      rw [seg_ops_spec lw lh x y width height p N i hi hp0 hp1 hN hx0 hxw hw3 hy0 hbh3 hfit]
      dsimp only
      have hcond : ¬ ((N : ℤ) - 1 - (i : ℤ) = bars_to_fill p N ∧ 0 < fill_frac p N) := by
        rintro ⟨-, h3⟩
        rw [hfr] at h3
        exact lt_irrefl 0 h3
      rw [if_neg hcond]
      rfl
    rw [List.filter_congr hpred, if_pos hm]
    simp
  · have hfr : 0 < fill_frac p N := fill_frac_pos p N hN hm
    have hp100 : p < 100 := by
      rcases eq_or_lt_of_le hp1 with he | hlt
      · exact absurd (he ▸ pyMod_hundred N hN) hm
      · exact hlt
    have hb0 : 0 ≤ bars_to_fill p N := bars_to_fill_nonneg p N hp0
    have hbN : bars_to_fill p N < (N : ℤ) := bars_to_fill_lt p N hp0 hp100 hN
    have ht : ((bars_to_fill p N).toNat : ℤ) = bars_to_fill p N := Int.toNat_of_nonneg hb0
    have hpred : ∀ i ∈ List.range N,
        ((seg_ops lw lh x y width height p N i).partFill.isSome)
          = decide (i = N - 1 - (bars_to_fill p N).toNat) := by
      intro i hi
      rw [List.mem_range] at hi
      rw [seg_ops_spec lw lh x y width height p N i hi hp0 hp1 hN hx0 hxw hw3 hy0 hbh3 hfit]
      dsimp only
      by_cases h : (N : ℤ) - 1 - (i : ℤ) = bars_to_fill p N
      · have hcond : (N : ℤ) - 1 - (i : ℤ) = bars_to_fill p N ∧ 0 < fill_frac p N := ⟨h, hfr⟩
        rw [if_pos hcond]
        have heq : i = N - 1 - (bars_to_fill p N).toNat := by omega
        simp [heq]
      · have hcond : ¬ ((N : ℤ) - 1 - (i : ℤ) = bars_to_fill p N ∧ 0 < fill_frac p N) := by
          rintro ⟨he, -⟩
          exact h he
        rw [if_neg hcond]
        have hne : ¬ (i = N - 1 - (bars_to_fill p N).toNat) := by omega
        simp [hne]
    rw [List.filter_congr hpred, length_filter_range_eq, if_pos (by omega), if_neg hm]

/-! ### C6 — segment counts of the vertical charge bar -/

unseal Rat.mul Rat.inv Rat.add Rat.sub in
/-- C6 counterexample to the claim as stated: at the landscape call site of
`draw_vertical_charge_bars` (logical 128 × 64, `x=45, y=15, width=8,
height=35, num_bars=12`, exactly as `show_solar_panel_mode` calls it) a
battery percentage of 10 fully fills 0 segments, not
`floor(10 * 12 / 100) = 1` — the two bottommost segments fall into the
reserved strip `bar_y + bar_height >= logical_height - 10` and are skipped
entirely. -/
theorem C6_counterexample :
    fullyFilledCount 128 64 45 15 8 35 10 12 = 0 ∧
    ⌊(10 : ℚ) * ((12 : ℕ) : ℚ) / 100⌋ = 1 := by
  constructor
  · decide
  · decide

/-- C6 (amended): PROVIDED every segment fits inside the drawable region
(`bar_y + bar_height < logicalHeight - 10` for the last segment, the
stack within the horizontal canvas bounds, `width ≥ 3`,
`bar_height ≥ 3`), and with the float arithmetic of the source modelled
exactly over ℚ: the routine fully fills exactly `⌊p·N/100⌋` segments,
exactly one segment receives a straddling fill unless `p` is an exact
multiple of `100/N` (which covers `p ∈ {0, 100}`), and the fully-filled
count is monotone in the percentage. -/
theorem C6_charge_bar_counts (lw lh x y width height : ℤ) (p q : ℚ) (N : ℕ)
    (hp0 : 0 ≤ p) (hp1 : p ≤ 100) (hq0 : 0 ≤ q) (hq1 : q ≤ 100) (hpq : p ≤ q)
    (hN : 1 ≤ N)
    (hx0 : 0 ≤ x) (hxw : x + width ≤ lw - 1) (hw3 : 3 ≤ width)
    (hy0 : 0 ≤ y) (hbh3 : 3 ≤ bar_height_of height N)
    (hfit : y + ((N : ℤ) - 1) * (bar_height_of height N + 2) + bar_height_of height N
      < lh - 10) :
    (fullyFilledCount lw lh x y width height p N : ℤ) = ⌊p * (N : ℚ) / 100⌋ ∧
    partFilledCount lw lh x y width height p N
      = (if pyMod p (100 / (N : ℚ)) = 0 then 0 else 1) ∧
    fullyFilledCount lw lh x y width height p N
      ≤ fullyFilledCount lw lh x y width height q N := by
  refine ⟨fullyFilledCount_eq lw lh x y width height p N hp0 hp1 hN hx0 hxw hw3 hy0 hbh3 hfit,
    partFilledCount_eq lw lh x y width height p N hp0 hp1 hN hx0 hxw hw3 hy0 hbh3 hfit, ?_⟩
  have h1 := fullyFilledCount_eq lw lh x y width height p N hp0 hp1 hN hx0 hxw hw3 hy0 hbh3 hfit
  have h2 := fullyFilledCount_eq lw lh x y width height q N hq0 hq1 hN hx0 hxw hw3 hy0 hbh3 hfit
  have hm : p * (N : ℚ) ≤ q * (N : ℚ) := mul_le_mul_of_nonneg_right hpq (Nat.cast_nonneg N)
  have hmono : ⌊p * (N : ℚ) / 100⌋ ≤ ⌊q * (N : ℚ) / 100⌋ :=
    Int.floor_le_floor (by linarith)
  omega

/-- C6 witness: the portrait call site (logical 64 × 128, `x=25, y=35,
width=12, height=80, num_bars=16`) with percentages 37 and 62. -/
theorem C6_charge_bar_counts_witness :
    (fullyFilledCount 64 128 25 35 12 80 37 16 : ℤ) = ⌊(37 : ℚ) * ((16 : ℕ) : ℚ) / 100⌋ ∧
    partFilledCount 64 128 25 35 12 80 37 16
      = (if pyMod 37 (100 / ((16 : ℕ) : ℚ)) = 0 then 0 else 1) ∧
    fullyFilledCount 64 128 25 35 12 80 37 16
      ≤ fullyFilledCount 64 128 25 35 12 80 62 16 :=
  C6_charge_bar_counts 64 128 25 35 12 80 37 62 16 (by norm_num) (by norm_num)
    (by norm_num) (by norm_num) (by norm_num) (by norm_num) (by norm_num)
    (by norm_num) (by norm_num) (by norm_num) (by decide) (by decide)

/-! ### C7 — fill policy of the vertical charge bar -/

/-- C7 counterexample to the claim as stated: at the landscape call site
(logical 128 × 64, `x=45, y=15, width=8, height=35, num_bars=12`) the
bottom segment `i = 11` is skipped entirely — it does NOT draw its
outline, contradicting "every segment draws its outline regardless of fill
state". -/
theorem C7_counterexample :
    (seg_ops 128 64 45 15 8 35 50 12 11).skipped = true ∧
    (seg_ops 128 64 45 15 8 35 50 12 11).outline = none := by
  decide

/-- C7 (amended): provided every segment fits inside the drawable region
(same proviso as the segment-count property), each loop iteration draws
its outline; the segment is fully filled exactly when its bottom-up index
`N - 1 - i` is below `bars_to_fill` — i.e. the `bars_to_fill` BOTTOMMOST
segments fill, bottom first; the straddling segment (bottom-up index equal
to `bars_to_fill`, positive fill fraction) is filled over the full inner
height but only `max(1, int((width-2)·((p mod (100/N)) / (100/N))))` of
its inner width — a horizontal fill inside a vertical segment. -/
theorem C7_charge_bar_fill_policy (lw lh x y width height : ℤ) (p : ℚ) (N i : ℕ)
    (hi : i < N)
    (hp0 : 0 ≤ p) (hp1 : p ≤ 100) (hN : 1 ≤ N)
    (hx0 : 0 ≤ x) (hxw : x + width ≤ lw - 1) (hw3 : 3 ≤ width)
    (hy0 : 0 ≤ y) (hbh3 : 3 ≤ bar_height_of height N)
    (hfit : y + ((N : ℤ) - 1) * (bar_height_of height N + 2) + bar_height_of height N
      < lh - 10) :
    seg_ops lw lh x y width height p N i =
      { skipped := false
        outline := some ⟨x, seg_bar_y y height N i, x + width,
          seg_bar_y y height N i + bar_height_of height N⟩
        fullFill :=
          if (N : ℤ) - 1 - (i : ℤ) < bars_to_fill p N then
            some ⟨x + 1, seg_bar_y y height N i + 1, x + width - 1,
              seg_bar_y y height N i + bar_height_of height N - 1⟩
          else none
        partFill :=
          if (N : ℤ) - 1 - (i : ℤ) = bars_to_fill p N ∧ 0 < fill_frac p N then
            some ⟨x + 1, seg_bar_y y height N i + 1,
              x + 1 + max 1 (pyInt (((width : ℚ) - 2) * fill_frac p N)),
              seg_bar_y y height N i + bar_height_of height N - 1⟩
          else none } ∧
    ((seg_ops lw lh x y width height p N i).fullFill.isSome = true ↔
      (N : ℤ) - bars_to_fill p N ≤ (i : ℤ)) := by
  have hs := seg_ops_spec lw lh x y width height p N i hi hp0 hp1 hN hx0 hxw hw3 hy0 hbh3 hfit
  refine ⟨hs, ?_⟩
  rw [hs]
  dsimp only
  by_cases h : (N : ℤ) - 1 - (i : ℤ) < bars_to_fill p N
  · rw [if_pos h]
    constructor
    · intro _
      omega
    · intro _
      rfl
  · rw [if_neg h]
    constructor
    · intro hfalse
      exact absurd hfalse (by simp)
    · intro hle
      exfalso
      omega

/-- C7 witness: portrait call site, segment 14 (second from the bottom) at
37 percent. -/
theorem C7_charge_bar_fill_policy_witness :
    seg_ops 64 128 25 35 12 80 37 16 14 =
      { skipped := false
        outline := some ⟨25, seg_bar_y 35 80 16 14, 25 + 12,
          seg_bar_y 35 80 16 14 + bar_height_of 80 16⟩
        fullFill :=
          if (16 : ℤ) - 1 - ((14 : ℕ) : ℤ) < bars_to_fill 37 16 then
            some ⟨25 + 1, seg_bar_y 35 80 16 14 + 1, 25 + 12 - 1,
              seg_bar_y 35 80 16 14 + bar_height_of 80 16 - 1⟩
          else none
        partFill :=
          if (16 : ℤ) - 1 - ((14 : ℕ) : ℤ) = bars_to_fill 37 16 ∧ 0 < fill_frac 37 16 then
            some ⟨25 + 1, seg_bar_y 35 80 16 14 + 1,
              25 + 1 + max 1 (pyInt ((((12 : ℤ) : ℚ) - 2) * fill_frac 37 16)),
              seg_bar_y 35 80 16 14 + bar_height_of 80 16 - 1⟩
          else none } ∧
    ((seg_ops 64 128 25 35 12 80 37 16 14).fullFill.isSome = true ↔
      (16 : ℤ) - bars_to_fill 37 16 ≤ ((14 : ℕ) : ℤ)) :=
  C7_charge_bar_fill_policy 64 128 25 35 12 80 37 16 14 (by norm_num) (by norm_num)
    (by norm_num) (by norm_num) (by norm_num) (by norm_num) (by norm_num)
    (by norm_num) (by decide) (by decide)
